import Mathlib

/-!
Verification of the instrumentation and simulated-state tracking layer of the
MRres-SSB repository (`logger_decorator.py` together with the well-tracking
helper `update_well_tracking` of `Aptamer DE pt 1.py`).

The Python code is shallowly embedded: Python floats become rationals (`ℚ`),
Python dicts become insertion-ordered association lists, dynamically typed
values become the `PyVal` inductive, and code that can raise a Python
exception returns `Except PyErr _`.  The textual payload of a log message is
abstracted to an inductive constructor carrying the salient numeric/string
fields that the message interpolates; the `input()` pause inside `log_error`
is modelled as a no-op (it does not change any tracked state).
-/

namespace MRresSSB

/-- A well object, as the tracking layer observes it: `display_name`,
`well_name` and the identity of its parent labware (`parent` is a labware
object in Python; its identity is modelled as a string). -/
structure Well where
  displayName : String
  wellName : String
  parent : String
deriving DecidableEq

/-- A dynamically typed Python value, restricted to the shapes that actually
reach the tracking layer: numbers (floats/ints, as `ℚ`), strings, well
objects, and `None`. -/
inductive PyVal where
  | num (q : ℚ)
  | str (s : String)
  | well (w : Well)
  | none_
deriving DecidableEq

/-- Python errors that the embedded code can raise. -/
inductive PyErr where
  | keyError (k : String)
  | typeError
  | valueError
  | attributeError
deriving DecidableEq

/-- Truthiness of a `PyVal`, mirroring Python: `None`, `0` and `""` are
falsy; well objects are truthy. -/
def pyTruthy : PyVal → Bool
  | .num q => decide (q ≠ 0)
  | .str s => decide (s ≠ "")
  | .well _ => true
  | .none_ => false

/-- Keys of the `well_volumes` / `well_capacity` dicts.  These dicts are keyed
by arbitrary hashables: `update_well_tracking` stores under the well object
itself, while `track_volume`'s local `well_key` stores under the tuple
`(display_name, parent)`.  A well object never equals a tuple, so the two
constructors are disjoint, exactly as in Python. -/
inductive WellKey where
  | obj (w : Well)
  | pair (displayName : String) (parent : Option String)
deriving DecidableEq

/-- Lookup in an insertion-ordered association list (Python `d[k]` /
`d.get(k)`). -/
def lookup {K V : Type} [DecidableEq K] (k : K) : List (K × V) → Option V
  | [] => none
  | (k', v) :: rest => if k = k' then some v else lookup k rest

/-- Python `d.get(k, dflt)`. -/
def dictGet {K V : Type} [DecidableEq K] (d : List (K × V)) (k : K) (dflt : V) : V :=
  (lookup k d).getD dflt

/-- Python `d[k] = v`: replace in place if the key is present, else append
(insertion order preserved). -/
def setEntry {K V : Type} [DecidableEq K] (k : K) (v : V) : List (K × V) → List (K × V)
  | [] => [(k, v)]
  | (k', v') :: rest => if k = k' then (k, v) :: rest else (k', v') :: setEntry k v rest

/-- An extended rational modelling Python's `float('inf')` as used by the
capacity default in `track_volume`. -/
inductive ExtQ where
  | fin (q : ℚ)
  | inf
deriving DecidableEq

/-- Python `e - q` where `e` may be `inf`. -/
def ExtQ.subQ : ExtQ → ℚ → ExtQ
  | .fin c, q => .fin (c - q)
  | .inf, _ => .inf

/-- Python `min(q, e)` where `e` may be `inf` (the result is always finite
because `q` is). -/
def minQE (q : ℚ) : ExtQ → ℚ
  | .fin c => min q c
  | .inf => q

/-- Python `q > e` where `e` may be `inf`. -/
def gtQE (q : ℚ) : ExtQ → Bool
  | .fin c => decide (c < q)
  | .inf => false

/-- The per-tip-type flow-rate record `{"aspirate": _, "dispense": _,
"blow_out": _}` stored in `self.flow_rates`. -/
structure RateProfile where
  aspirate : ℚ
  dispense : ℚ
  blow_out : ℚ
deriving DecidableEq

/-- The three wrapped flow-rate attributes. -/
inductive RateAttr where
  | aspirate
  | dispense
  | blow_out
deriving DecidableEq

/-- Read one field of a `RateProfile`. -/
def RateProfile.get (p : RateProfile) : RateAttr → ℚ
  | .aspirate => p.aspirate
  | .dispense => p.dispense
  | .blow_out => p.blow_out

/-- Write one field of a `RateProfile` (Python
`self.flow_rates[tip_type][action] = value`). -/
def RateProfile.set (p : RateProfile) : RateAttr → ℚ → RateProfile
  | .aspirate, v => { p with aspirate := v }
  | .dispense, v => { p with dispense := v }
  | .blow_out, v => { p with blow_out := v }

/-- The salient content of a formatted log message.  Each constructor carries
the values that the corresponding Python f-string interpolates; the fixed
surrounding text is abstracted away. -/
inductive LogMsg where
  | aspirateAction (tip : String) (aspirated remaining effRate : ℚ)
  | shortfall (requested available : ℚ)
  | dispenseAction (tip : String) (dispensed total effRate : ℚ)
  | overflow (requested : ℚ) (capacity : ExtQ)
  | pickUp (tip : String) (total : ℕ)
  | dropTip (tip : String)
  | mixAction (tip : String) (reps volume : PyVal) (w : Well) (effRate : ℚ)
  | mixError
  | unresolved (funcName : String)
  | flowRateChange (tip : String) (attr : RateAttr) (value : ℚ)
  | decorating (funcName : String)
  | blockTemp (t : PyVal)
  | lidTemp (t : PyVal)
  | closedLid
  | openedLid
  | engaged (h : PyVal)
  | disengaged
  | generic (funcName : String)
  | flowRateInit (tip : String) (aspirate dispense blow_out : ℚ)
deriving DecidableEq

/-- An entry of `self.logs`.  `log_action` appends `{"action": msg}`;
`log_error` appends `{"action": "ERROR: " + msg}` — the level is recoverable
from the entry, so it is kept as a constructor. -/
inductive LogEntry where
  | act (m : LogMsg)
  | err (m : LogMsg)
deriving DecidableEq

/-- Console output level used by `_format_log` / `print`. -/
inductive Level where
  | action
  | info
  | error
deriving DecidableEq

/-- The mutable state of a `LoggerDecorator` instance, plus the console
stream (`print` output), which is observable but distinct from `self.logs`. -/
structure LState where
  logs : List LogEntry
  console : List (Level × LogMsg)
  well_volumes : List (WellKey × ℚ)
  well_capacity : List (WellKey × ℚ)
  tip_usage : List (String × ℕ)
  flow_rates : List (String × RateProfile)
deriving DecidableEq

/-- `LoggerDecorator.log_action`: print and append `{"action": action}`. -/
def log_action (st : LState) (m : LogMsg) : LState :=
  { st with console := st.console ++ [(Level.action, m)],
            logs := st.logs ++ [LogEntry.act m] }

/-- `LoggerDecorator.log_error`: print, append an `ERROR:`-prefixed entry and
pause on `input()` (the pause is modelled as a no-op). -/
def log_error (st : LState) (m : LogMsg) : LState :=
  { st with console := st.console ++ [(Level.error, m)],
            logs := st.logs ++ [LogEntry.err m] }

/-- `LoggerDecorator.log_info`: print only — nothing is appended to
`self.logs`. -/
def log_info (st : LState) (m : LogMsg) : LState :=
  { st with console := st.console ++ [(Level.info, m)] }

/-- `LoggerDecorator.get_logs`. -/
def get_logs (st : LState) : List LogEntry :=
  st.logs

/-- `LoggerDecorator.get_tip_usage`. -/
def get_tip_usage (st : LState) : List (String × ℕ) :=
  st.tip_usage

/-- The local `well_key` of `track_volume`, applied to a truthy
source/destination value: a well yields the tuple
`(display_name, parent)`; any other object lacks both attributes and yields
`("unknown", None)`. -/
def wellKeyOf : PyVal → WellKey
  | .well w => .pair w.displayName (some w.parent)
  | _ => .pair "unknown" none

/-- The local `get_effective_rate` of `track_volume`:
`base_rate * multiplier if multiplier else base_rate`, with the `TypeError`
of a float-times-non-number caught and falling back to `base_rate`. -/
def get_effective_rate (base : ℚ) (multiplier : PyVal) : ℚ :=
  if pyTruthy multiplier then
    match multiplier with
    | .num m => base * m
    | _ => base
  else base

/-- The sentinel substituted by `if not tip_type` in `track_volume`. -/
def effTip : Option String → String
  | none => "unknown tip type"
  | some s => if s = "" then "unknown tip type" else s

/-- The aspirate branch of `track_volume` (`if source:`). -/
def track_volume_source (st : LState) (volume : PyVal) (source : PyVal)
    (rate : PyVal) (tip : String) : Except PyErr LState :=
  if pyTruthy source then
    let source_key := wellKeyOf source
    let available := dictGet st.well_volumes source_key 0
    match volume with
    | .num v =>
      -- aspirated_volume = min(available_volume, volume)
      let aspirated := min available v
      -- effective_rate = get_effective_rate(self.flow_rates[tip_type]["aspirate"], rate)
      match lookup tip st.flow_rates with
      | none => .error (.keyError tip)
      | some prof =>
        let effRate := get_effective_rate prof.aspirate rate
        let remaining := max 0 (available - aspirated)
        let st := { st with well_volumes := setEntry source_key remaining st.well_volumes }
        let st := log_action st (.aspirateAction tip aspirated remaining effRate)
        if available < v then
          .ok (log_error st (.shortfall v available))
        else
          .ok st
    | _ => .error .typeError  -- min(float, non-number) raises TypeError
  else .ok st

/-- Python `self.well_capacity.get(destination_key, float('inf'))`. -/
def capOf (st : LState) (k : WellKey) : ExtQ :=
  match lookup k st.well_capacity with
  | some c => .fin c
  | none => .inf

/-- The dispense branch of `track_volume` (`if destination:`). -/
def track_volume_dest (st : LState) (volume : PyVal) (destination : PyVal)
    (rate : PyVal) (tip : String) : Except PyErr LState :=
  if pyTruthy destination then
    let destination_key := wellKeyOf destination
    let current := dictGet st.well_volumes destination_key 0
    let max_capacity : ExtQ := capOf st destination_key
    match volume with
    | .num v =>
      let new_volume := current + v
      let dispensed := minQE v (max_capacity.subQ current)
      match lookup tip st.flow_rates with
      | none => .error (.keyError tip)
      | some prof =>
        let effRate := get_effective_rate prof.dispense rate
        let total := minQE new_volume max_capacity
        let st := { st with well_volumes := setEntry destination_key total st.well_volumes }
        let st := log_action st (.dispenseAction tip dispensed total effRate)
        if gtQE new_volume max_capacity then
          .ok (log_error st (.overflow v max_capacity))
        else
          .ok st
    | _ => .error .typeError  -- current + non-number raises TypeError
  else .ok st

/-- `LoggerDecorator.track_volume(volume, source, destination, rate,
tip_type)`: default the tip type to the sentinel, then run the aspirate
branch followed by the dispense branch. -/
def track_volume (st : LState) (volume : PyVal) (source destination : PyVal)
    (rate : PyVal) (tip_type : Option String) : Except PyErr LState :=
  let tip := effTip tip_type
  match track_volume_source st volume source rate tip with
  | .error e => .error e
  | .ok st' => track_volume_dest st' volume destination rate tip

/-- A tip rack, of which `get_dynamic_tip_type` only reads `load_name`. -/
structure TipRack where
  loadName : String
deriving DecidableEq

/-- The instance-level (pre-patch) attribute values of one pipette's
`flow_rate` object. -/
structure FlowRateObj where
  aspirate : ℚ
  dispense : ℚ
  blow_out : ℚ
deriving DecidableEq

/-- Read one instance attribute of a `flow_rate` object. -/
def FlowRateObj.get (o : FlowRateObj) : RateAttr → ℚ
  | .aspirate => o.aspirate
  | .dispense => o.dispense
  | .blow_out => o.blow_out

/-- A pipette instrument, of which the wrapper reads `tip_racks` and
`wrap_flow_rate` reads `flow_rate`. -/
structure Pipette where
  tipRacks : List TipRack
  flowRate : FlowRateObj
deriving DecidableEq

/-- Python `rack_name.split('_')` over the character list of the string. -/
def splitOnUnderscore : List Char → List (List Char)
  | [] => [[]]
  | c :: rest =>
    let r := splitOnUnderscore rest
    if c = '_' then [] :: r
    else
      match r with
      | [] => [[c]]
      | g :: gs => (c :: g) :: gs

/-- Python `part.endswith('ul')`. -/
def endsWithUL (l : List Char) : Bool :=
  match l.reverse with
  | 'l' :: 'u' :: _ => true
  | _ => false

/-- Accumulate decimal digits, failing on any non-digit. -/
def digitsToNatAux (acc : ℕ) : List Char → Option ℕ
  | [] => some acc
  | c :: rest =>
    if c.isDigit then digitsToNatAux (acc * 10 + (c.toNat - 48)) rest
    else none

/-- Python `int(s)` for plain decimal literals: an optional sign followed by
at least one digit (surrounding whitespace and digit-group underscores, which
Python also accepts, are not modelled). -/
def parsePyInt : List Char → Option ℤ
  | '-' :: rest =>
    if rest = [] then none else (digitsToNatAux 0 rest).map (fun n => -(n : ℤ))
  | '+' :: rest =>
    if rest = [] then none else (digitsToNatAux 0 rest).map (fun n => (n : ℤ))
  | [] => none
  | l => (digitsToNatAux 0 l).map (fun n => (n : ℤ))

/-- Render a natural number in decimal (fuel-based, so it reduces in the
kernel). -/
def natToCharsAux : ℕ → ℕ → List Char → List Char
  | 0, _, acc => acc
  | fuel + 1, n, acc =>
    let acc := Char.ofNat (n % 10 + 48) :: acc
    if n < 10 then acc else natToCharsAux fuel (n / 10) acc

/-- Decimal rendering of a natural number. -/
def natToString (n : ℕ) : String :=
  String.mk (natToCharsAux (n + 1) n [])

/-- Python `str` of an int (as interpolated by `f"p{int(part[:-2])}"`). -/
def intToString : ℤ → String
  | .ofNat n => natToString n
  | .negSucc m => "-" ++ natToString (m + 1)

/-- The loop body of `get_dynamic_tip_type`: the first `_`-separated token
ending in `ul` whose numeric part (the token without its final two
characters) parses as an int yields `p<int>`; a `ValueError` is passed over
and the scan continues. -/
def findTipToken : List (List Char) → String
  | [] => "unknown tip type"
  | part :: rest =>
    if endsWithUL part then
      match parsePyInt part.dropLast.dropLast with
      | some n => "p" ++ intToString n
      | none => findTipToken rest
    else findTipToken rest

/-- `LoggerDecorator.get_dynamic_tip_type`: guarded by the truthiness of
`pipette.tip_racks` and of `tip_racks[0].load_name`. -/
def get_dynamic_tip_type (p : Pipette) : String :=
  match p.tipRacks with
  | [] => "unknown tip type"
  | r :: _ =>
    if r.loadName = "" then "unknown tip type"
    else findTipToken (splitOnUnderscore r.loadName.data)

/-- The call payload seen by the wrapper produced by `decorate`: the
positional arguments plus the keyword arguments the wrapper looks up.  A
field holding `none` means the keyword was not passed; `some .none_` means it
was passed explicitly as `None`. -/
structure CallArgs where
  pos : List PyVal := []
  kwVolume : Option PyVal := none
  kwLocation : Option PyVal := none
  kwRate : Option PyVal := none
  kwRepetitions : Option PyVal := none
  kwHeightFromBase : Option PyVal := none
  kwTemperature : Option PyVal := none
  kwAction : Option PyVal := none
  kwValue : Option PyVal := none
deriving DecidableEq

/-- `kwargs.get("volume", args[0] if len(args) > 0 else None)`. -/
def argVolume (a : CallArgs) : PyVal :=
  match a.kwVolume with
  | some v => v
  | none => (a.pos.get? 0).getD .none_

/-- `kwargs.get("location", args[1] if len(args) > 1 else None)`. -/
def argLocation (a : CallArgs) : PyVal :=
  match a.kwLocation with
  | some v => v
  | none => (a.pos.get? 1).getD .none_

/-- `kwargs.get("rate", None)`. -/
def argRate (a : CallArgs) : PyVal :=
  (a.kwRate).getD .none_

/-- `kwargs.get("repetitions", None)`. -/
def argRepetitions (a : CallArgs) : PyVal :=
  (a.kwRepetitions).getD .none_

/-- `kwargs.get("temperature", args[0] if len(args) > 0 else None)`. -/
def argTemperature (a : CallArgs) : PyVal :=
  match a.kwTemperature with
  | some v => v
  | none => (a.pos.get? 0).getD .none_

/-- The operation-kind dispatch of the wrapper, run after the pipette has
been resolved.  Branches follow the `if func.__name__ == ...` chain of
`decorate` in source order. -/
def dispatch (st : LState) (funcName : String) (pip : Pipette)
    (args : CallArgs) : Except PyErr LState :=
  let volume := argVolume args
  let location := argLocation args
  let rate := argRate args
  let repetitions := argRepetitions args
  let tip := get_dynamic_tip_type pip
  if funcName = "mix" then
    match location with
    | .well w =>
      -- effective_rate = rate or 1.0; the ACTION f-string formats it with
      -- :.2f, which raises unless it is a number
      let effRate := if pyTruthy rate then rate else .num 1
      match effRate with
      | .num r => .ok (log_action st (.mixAction tip repetitions volume w r))
      | _ => .error .valueError
    | _ => .ok (log_error st .mixError)  -- location is None or has no 'parent'
  else if funcName = "aspirate" then
    track_volume st volume location .none_ rate (some tip)
  else if funcName = "dispense" then
    track_volume st volume .none_ location rate (some tip)
  else if funcName = "pick_up_tip" then
    let total := dictGet st.tip_usage tip 0 + 1
    let st := { st with tip_usage := setEntry tip total st.tip_usage }
    .ok (log_action st (.pickUp tip total))
  else if funcName = "drop_tip" then
    .ok (log_action st (.dropTip tip))
  else if funcName = "blow_out" then
    -- effective_rate: flow_rates.get(tip, {}).get("blow_out", "unknown");
    -- with an unregistered tip and a truthy rate, "unknown" * rate raises
    -- TypeError; otherwise self.track_blowout — a method that does not exist
    -- anywhere in the class — raises AttributeError
    match lookup tip st.flow_rates with
    | some _ => .error .attributeError
    | none => if pyTruthy rate then .error .typeError else .error .attributeError
  else if funcName = "set_flow_rate" then
    -- if action and value: self.track_flow_rate(...) — a method that does
    -- not exist — raises AttributeError; otherwise nothing is logged
    let action := (args.kwAction).getD .none_
    let value := (args.kwValue).getD .none_
    if pyTruthy action && pyTruthy value then .error .attributeError
    else .ok st
  else if funcName = "set_block_temperature" then
    .ok (log_action st (.blockTemp (argTemperature args)))
  else if funcName = "set_lid_temperature" then
    .ok (log_action st (.lidTemp (argTemperature args)))
  else if funcName = "close_lid" then
    .ok (log_action st .closedLid)
  else if funcName = "open_lid" then
    .ok (log_action st .openedLid)
  else if funcName = "engage" then
    let height := (args.kwHeightFromBase).getD (.str "default height")
    .ok (log_action st (.engaged height))
  else if funcName = "disengage" then
    .ok (log_action st .disengaged)
  else
    .ok (log_action st (.generic funcName))

/-- The state effect of one invocation of the wrapper returned by
`LoggerDecorator.decorate`: the debugging `log_info`, then either the
unresolved-pipette error branch or the dispatch. -/
def wrapper (st : LState) (funcName : String) (pipette : Option Pipette)
    (args : CallArgs) : Except PyErr LState :=
  let st := log_info st (.decorating funcName)
  match pipette with
  | none => .ok (log_error st (.unresolved funcName))
  | some pip => dispatch st funcName pip args

/-- A full invocation of the wrapper, including the final
`return func(*args, **kwargs)`: the real operation is an arbitrary function
of the call payload and its value is returned to the caller. -/
def wrapperCall {R : Type} (st : LState) (funcName : String)
    (pipette : Option Pipette) (args : CallArgs) (real : CallArgs → R) :
    Except PyErr (LState × R) :=
  match wrapper st funcName pipette args with
  | .ok st' => .ok (st', real args)
  | .error e => .error e

/-- One intercepted call: the wrapped operation's name, the pipette the bound
method resolves to (if any), and the call payload. -/
structure Call where
  funcName : String
  pipette : Option Pipette
  args : CallArgs

/-- A sequence of intercepted calls, each running to completion before the
next (single-threaded); an exception aborts the run. -/
def runCalls (st : LState) : List Call → Except PyErr LState
  | [] => .ok st
  | c :: rest =>
    match wrapper st c.funcName c.pipette c.args with
    | .ok st' => runCalls st' rest
    | .error e => .error e

/-- The operation names that `wrap_instrument` and `wrap_module` actually
decorate: these are the intercepted operations of this repository. -/
def interceptedNames : List String :=
  ["aspirate", "dispense", "pick_up_tip", "drop_tip",
   "engage", "disengage", "set_block_temperature", "set_lid_temperature",
   "close_lid", "open_lid"]

/-- `update_well_tracking` of `Aptamer DE pt 1.py`: for every well of the
labware, store the capacity and the (possibly overridden) initial volume —
keyed by the well object itself. -/
def update_well_tracking (st : LState) (labware : List Well) (capacity : ℚ)
    (initial_volume : ℚ) (overrides : List (String × ℚ)) : LState :=
  labware.foldl
    (fun st well =>
      { st with
        well_capacity := setEntry (WellKey.obj well) capacity st.well_capacity,
        well_volumes :=
          setEntry (WellKey.obj well)
            (dictGet overrides well.wellName initial_volume) st.well_volumes })
    st

/-- One `LoggedFlowRateProperty` instance: it stores `_original_value` (the
captured pipette/attribute references only select which logger call is made
and are kept implicit). -/
structure LoggedFlowRateProp where
  originalValue : ℚ
deriving DecidableEq

/-- The state of the `flow_rate` object's CLASS: `wrap_flow_rate` executes
`setattr(flow_rate.__class__, attr, logged_property)`, so the installed
properties live on the class, shared by every `flow_rate` instance of that
class. -/
structure FRClassState where
  aspProp : Option LoggedFlowRateProp := none
  dispProp : Option LoggedFlowRateProp := none
  blowProp : Option LoggedFlowRateProp := none
deriving DecidableEq

/-- The property installed on the class for a given attribute, if any. -/
def FRClassState.prop (cls : FRClassState) : RateAttr → Option LoggedFlowRateProp
  | .aspirate => cls.aspProp
  | .dispense => cls.dispProp
  | .blow_out => cls.blowProp

/-- Replace the class-level property for one attribute. -/
def FRClassState.setProp (cls : FRClassState) : RateAttr → LoggedFlowRateProp → FRClassState
  | .aspirate, p => { cls with aspProp := some p }
  | .dispense, p => { cls with dispProp := some p }
  | .blow_out, p => { cls with blowProp := some p }

/-- Python attribute lookup `getattr(flow_rate, attr)`: `LoggedFlowRateProp`
defines both `__get__` and `__set__`, so it is a data descriptor and the
class-level property takes precedence over the instance attribute. -/
def getattrFR (cls : FRClassState) (obj : FlowRateObj) (attr : RateAttr) : ℚ :=
  match cls.prop attr with
  | some p => p.originalValue
  | none => obj.get attr

/-- The class-level effect of `wrap_flow_rate`: for each of the three
attributes, construct a `LoggedFlowRateProperty` whose `__init__` captures
`_original_value = getattr(flow_rate, attribute)`, then install it on
`flow_rate.__class__`.  The loop installs the attributes in order, but since
each capture reads only its own attribute — before its own property is
replaced — every capture reads under the incoming class state. -/
def wrap_flow_rate_class (cls : FRClassState) (obj : FlowRateObj) : FRClassState :=
  { aspProp := some ⟨getattrFR cls obj .aspirate⟩,
    dispProp := some ⟨getattrFR cls obj .dispense⟩,
    blowProp := some ⟨getattrFR cls obj .blow_out⟩ }

/-- The three readings `pipette.flow_rate.{aspirate,dispense,blow_out}`
under a given class state, used by the `flow_rates` registration in
`wrap_flow_rate`, by `log_initial_flow_rates` and by the `setdefault` in
`log_flow_rate_change`. -/
def readProfile (cls : FRClassState) (obj : FlowRateObj) : RateProfile :=
  { aspirate := getattrFR cls obj .aspirate,
    dispense := getattrFR cls obj .dispense,
    blow_out := getattrFR cls obj .blow_out }

/-- `LoggerDecorator.wrap_flow_rate(pipette)`: patch the class, then register
the pipette's tip type in `self.flow_rates` if absent, reading the rates
through the freshly patched class. -/
def wrap_flow_rate (st : LState) (cls : FRClassState) (pip : Pipette) :
    LState × FRClassState :=
  let cls' := wrap_flow_rate_class cls pip.flowRate
  let tip := get_dynamic_tip_type pip
  let st' :=
    match lookup tip st.flow_rates with
    | some _ => st
    | none => { st with flow_rates := setEntry tip (readProfile cls' pip.flowRate) st.flow_rates }
  (st', cls')

/-- `LoggerDecorator.log_initial_flow_rates(pipette)`: overwrite the tip
type's profile with the current readings and emit an INFO message. -/
def log_initial_flow_rates (st : LState) (cls : FRClassState) (pip : Pipette) : LState :=
  let tip := get_dynamic_tip_type pip
  let prof := readProfile cls pip.flowRate
  let st := { st with flow_rates := setEntry tip prof st.flow_rates }
  log_info st (.flowRateInit tip prof.aspirate prof.dispense prof.blow_out)

/-- `LoggerDecorator.log_flow_rate_change(pipette, action, value)`:
`setdefault` the tip type's profile from the current readings, overwrite the
one field, and emit an INFO message (console only). -/
def log_flow_rate_change (st : LState) (cls : FRClassState) (pip : Pipette)
    (attr : RateAttr) (value : ℚ) : LState :=
  let tip := get_dynamic_tip_type pip
  let fr :=
    match lookup tip st.flow_rates with
    | some _ => st.flow_rates
    | none => setEntry tip (readProfile cls pip.flowRate) st.flow_rates
  let prof := dictGet fr tip (readProfile cls pip.flowRate)
  let fr := setEntry tip (prof.set attr value) fr
  log_info { st with flow_rates := fr } (.flowRateChange tip attr value)

/-- Python `isinstance(value, (int, float))`. -/
def isNumericPy : PyVal → Bool
  | .num _ => true
  | _ => false

/-- `LoggedFlowRateProperty.__set__`: a non-numeric value raises `ValueError`
before any state change; a numeric value is stored in the class-level
property and reported through `log_flow_rate_change`. -/
def flowProp_set (st : LState) (cls : FRClassState) (pip : Pipette)
    (attr : RateAttr) (value : PyVal) : Except PyErr (LState × FRClassState) :=
  match value with
  | .num v =>
    let cls' := cls.setProp attr ⟨v⟩
    .ok (log_flow_rate_change st cls' pip attr v, cls')
  | _ => .error .valueError

/-- Whether an `Except` result is a normal return. -/
def exOk {α : Type} : Except PyErr α → Bool
  | .ok _ => true
  | .error _ => false

/-- The exception carried by an `Except` result, if any. -/
def exErr {α : Type} : Except PyErr α → Option PyErr
  | .ok _ => none
  | .error e => some e

/-- The normal return of an `Except` result, with a default. -/
def exGet {α : Type} (d : α) : Except PyErr α → α
  | .ok a => a
  | .error _ => d

/-- Whether a log entry is an `ERROR:`-prefixed entry. -/
def isErrEntry : LogEntry → Bool
  | .err _ => true
  | .act _ => false

/-- Number of ERROR entries in a log. -/
def errCount (l : List LogEntry) : ℕ :=
  (l.filter isErrEntry).length

/-- The freshly initialised state of `LoggerDecorator.__init__`: every
container empty. -/
def initState : LState :=
  { logs := [], console := [], well_volumes := [], well_capacity := [],
    tip_usage := [], flow_rates := [] }

/-- A concrete well, as produced for `plate['A1']`. -/
def wellA1 : Well :=
  { displayName := "A1 of plate on 2", wellName := "A1", parent := "plate" }

/-- The `p20` tip rack of the protocol. -/
def rack20 : TipRack :=
  { loadName := "opentrons_96_tiprack_20ul" }

/-- A concrete `p20` flow-rate profile. -/
def prof20 : RateProfile :=
  { aspirate := 8, dispense := 8, blow_out := 8 }

/-- A concrete wrapped pipette whose dynamic tip type is `p20`. -/
def pipP20 : Pipette :=
  { tipRacks := [rack20],
    flowRate := { aspirate := 8, dispense := 8, blow_out := 8 } }

theorem lookup_setEntry_self {K V : Type} [DecidableEq K] (k : K) (v : V) :
    ∀ d : List (K × V), lookup k (setEntry k v d) = some v
  | [] => by simp [setEntry, lookup]
  | (k', v') :: rest => by
    by_cases h : k = k'
    · simp [setEntry, h, lookup]
    · simp [setEntry, h, lookup, lookup_setEntry_self k v rest]

theorem lookup_setEntry_ne {K V : Type} [DecidableEq K] {k k' : K} (v : V)
    (h : k' ≠ k) : ∀ d : List (K × V), lookup k' (setEntry k v d) = lookup k' d
  | [] => by simp [setEntry, lookup, h]
  | (k₀, v₀) :: rest => by
    by_cases hk : k = k₀
    · subst hk
      simp [setEntry, lookup, h]
    · simp [setEntry, hk, lookup, lookup_setEntry_ne v h rest]

/-- The aspirate path of `track_volume` in closed form: `V0` is the value
`well_volumes.get(source_key, 0)` reads (the stored entry, or the default 0
when absent), and the flow profile is registered. -/
theorem track_volume_aspirate_eq (st : LState) (w : Well) (v V0 : ℚ) (rate : PyVal)
    (tip_type : Option String) (prof : RateProfile)
    (hvol : dictGet st.well_volumes (wellKeyOf (.well w)) 0 = V0)
    (hprof : lookup (effTip tip_type) st.flow_rates = some prof) :
    track_volume st (.num v) (.well w) .none_ rate tip_type =
      .ok (let s1 := log_action
              { st with well_volumes :=
                  setEntry (wellKeyOf (.well w)) (max 0 (V0 - min V0 v)) st.well_volumes }
              (.aspirateAction (effTip tip_type) (min V0 v) (max 0 (V0 - min V0 v))
                 (get_effective_rate prof.aspirate rate))
           if V0 < v then log_error s1 (.shortfall v V0) else s1) := by
  by_cases hlt : V0 < v
  · simp [track_volume, track_volume_source, track_volume_dest, pyTruthy,
      hvol, hprof, hlt]
  · simp [track_volume, track_volume_source, track_volume_dest, pyTruthy,
      hvol, hprof, hlt]

/-- C1: for a well whose ledger entry is readable under the key
`track_volume` uses (the `(display_name, parent)` pair), with current volume
`V0`, an aspirate-shaped call (`source` set, `destination` absent, numeric
volume `v`, flow profile registered for the effective tip type) returns
normally, updates the entry to `V0 - min V0 v`, and appends exactly one
ACTION entry, followed by exactly one VolumeShortfall ERROR entry if and
only if `v > V0`. -/
theorem C1_aspirate (st : LState) (w : Well) (v V0 : ℚ) (rate : PyVal)
    (tip_type : Option String) (prof : RateProfile)
    (hvol : lookup (wellKeyOf (.well w)) st.well_volumes = some V0)
    (hprof : lookup (effTip tip_type) st.flow_rates = some prof) :
    ∃ st', track_volume st (.num v) (.well w) .none_ rate tip_type = .ok st' ∧
      lookup (wellKeyOf (.well w)) st'.well_volumes = some (V0 - min V0 v) ∧
      (v ≤ V0 → st'.logs = st.logs ++
        [LogEntry.act (.aspirateAction (effTip tip_type) (min V0 v) (V0 - min V0 v)
           (get_effective_rate prof.aspirate rate))]) ∧
      (V0 < v → st'.logs = st.logs ++
        [LogEntry.act (.aspirateAction (effTip tip_type) (min V0 v) (V0 - min V0 v)
           (get_effective_rate prof.aspirate rate)),
         LogEntry.err (.shortfall v V0)]) := by
  have hrem : max 0 (V0 - min V0 v) = V0 - min V0 v :=
    max_eq_right (sub_nonneg.mpr (min_le_left V0 v))
  refine ⟨_, track_volume_aspirate_eq st w v V0 rate tip_type prof
    (by simp [dictGet, hvol]) hprof, ?_, ?_, ?_⟩
  · by_cases hlt : V0 < v <;>
      simp [log_action, log_error, hlt, lookup_setEntry_self, hrem]
  · intro hle
    simp [log_action, log_error, not_lt.mpr hle, hrem]
  · intro hlt
    simp [log_action, log_error, hlt, hrem]

/-- A concrete state with `A1` at 10 µL under the tracking key and a
registered `p20` profile. -/
def c1_state : LState :=
  { initState with
    well_volumes := [(wellKeyOf (.well wellA1), 10)],
    flow_rates := [("p20", prof20)] }

/-- Witness for C1: aspirating 3 µL from a well holding 10 µL leaves 7 µL. -/
theorem C1_aspirate_witness :
    ∃ st', track_volume c1_state (.num 3) (.well wellA1) .none_ .none_ (some "p20") =
        .ok st' ∧
      lookup (wellKeyOf (.well wellA1)) st'.well_volumes = some 7 := by
  obtain ⟨st', h1, h2, h3, h4⟩ :=
    C1_aspirate c1_state wellA1 3 10 .none_ (some "p20") prof20 (by decide) (by decide)
  refine ⟨st', h1, ?_⟩
  rw [h2, min_eq_right (by norm_num : (3:ℚ) ≤ 10)]
  norm_num

/-- The dispense path of `track_volume` in closed form, under a readable
ledger entry and a registered flow profile. -/
theorem track_volume_dispense_eq (st : LState) (w : Well) (v current : ℚ)
    (rate : PyVal) (tip_type : Option String) (prof : RateProfile)
    (hvol : lookup (wellKeyOf (.well w)) st.well_volumes = some current)
    (hprof : lookup (effTip tip_type) st.flow_rates = some prof) :
    track_volume st (.num v) .none_ (.well w) rate tip_type =
      .ok (let cap := capOf st (wellKeyOf (.well w))
           let s1 := log_action
              { st with well_volumes :=
                  setEntry (wellKeyOf (.well w)) (minQE (current + v) cap) st.well_volumes }
              (.dispenseAction (effTip tip_type) (minQE v (cap.subQ current))
                 (minQE (current + v) cap) (get_effective_rate prof.dispense rate))
           if gtQE (current + v) cap then log_error s1 (.overflow v cap) else s1) := by
  have hkey : dictGet st.well_volumes (wellKeyOf (.well w)) 0 = current := by
    simp [dictGet, hvol]
  by_cases hov : gtQE (current + v) (capOf st (wellKeyOf (.well w))) = true
  · simp [track_volume, track_volume_source, track_volume_dest, pyTruthy,
      hkey, hprof, hov]
  · simp [track_volume, track_volume_source, track_volume_dest, pyTruthy,
      hkey, hprof, hov]

/-- C2: for a well whose ledger entry holds `current` (capacity defaulting to
infinity when unset), a dispense-shaped call (`destination` set, `source`
absent, numeric volume `v`, registered flow profile) sets the entry to
`min (current + v) capacity`, appends exactly one ACTION entry reporting
`dispensed = min v (capacity - current)`, appends exactly one
CapacityExceeded ERROR entry if and only if `current + v > capacity`, and a
dispense of `v ≥ 0` into a well already at its capacity leaves the entry
unchanged. -/
theorem C2_dispense (st : LState) (w : Well) (v current : ℚ) (rate : PyVal)
    (tip_type : Option String) (prof : RateProfile)
    (hvol : lookup (wellKeyOf (.well w)) st.well_volumes = some current)
    (hprof : lookup (effTip tip_type) st.flow_rates = some prof) :
    ∃ st', track_volume st (.num v) .none_ (.well w) rate tip_type = .ok st' ∧
      lookup (wellKeyOf (.well w)) st'.well_volumes =
        some (minQE (current + v) (capOf st (wellKeyOf (.well w)))) ∧
      st'.logs = st.logs ++
        [LogEntry.act (.dispenseAction (effTip tip_type)
            (minQE v ((capOf st (wellKeyOf (.well w))).subQ current))
            (minQE (current + v) (capOf st (wellKeyOf (.well w))))
            (get_effective_rate prof.dispense rate))] ++
        (if gtQE (current + v) (capOf st (wellKeyOf (.well w))) then
          [LogEntry.err (.overflow v (capOf st (wellKeyOf (.well w))))] else []) ∧
      (0 ≤ v → capOf st (wellKeyOf (.well w)) = .fin current →
        lookup (wellKeyOf (.well w)) st'.well_volumes = some current) := by
  refine ⟨_, track_volume_dispense_eq st w v current rate tip_type prof hvol hprof,
    ?_, ?_, ?_⟩
  · by_cases hov : gtQE (current + v) (capOf st (wellKeyOf (.well w))) = true <;>
      simp [log_action, log_error, hov, lookup_setEntry_self]
  · by_cases hov : gtQE (current + v) (capOf st (wellKeyOf (.well w))) = true <;>
      simp [log_action, log_error, hov]
  · intro hv hcap
    have hmin : minQE (current + v) (capOf st (wellKeyOf (.well w))) = current := by
      rw [hcap]
      exact min_eq_right (le_add_of_nonneg_right hv)
    by_cases hov : gtQE (current + v) (capOf st (wellKeyOf (.well w))) = true <;>
      simp [log_action, log_error, hov, lookup_setEntry_self, hmin]

/-- A concrete state with `A1` full at its 200 µL capacity and a registered
`p20` profile. -/
def c2_state : LState :=
  { initState with
    well_volumes := [(wellKeyOf (.well wellA1), 200)],
    well_capacity := [(wellKeyOf (.well wellA1), 200)],
    flow_rates := [("p20", prof20)] }

/-- Witness for C2: dispensing 5 µL into a well already at its 200 µL
capacity leaves it at 200 µL. -/
theorem C2_dispense_witness :
    ∃ st', track_volume c2_state (.num 5) .none_ (.well wellA1) .none_ (some "p20") =
        .ok st' ∧
      lookup (wellKeyOf (.well wellA1)) st'.well_volumes = some 200 := by
  obtain ⟨st', h1, h2, h3, h4⟩ :=
    C2_dispense c2_state wellA1 5 200 .none_ (some "p20") prof20 (by decide) (by decide)
  exact ⟨st', h1, h4 (by norm_num) (by decide)⟩

/-- The seeded state of the C3 scenario: a labware with well `A1`,
`capacity=360, initial_volume=360`, seeded through `update_well_tracking`,
with the `p20` profile registered. -/
def c3_state0 : LState :=
  update_well_tracking { initState with flow_rates := [("p20", prof20)] }
    [wellA1] 360 360 []

/-- One intercepted `p20.aspirate(20, wellA1)` call of the C3 scenario. -/
def c3_asp : Call :=
  { funcName := "aspirate", pipette := some pipP20,
    args := { pos := [.num 20, .well wellA1] } }

/-- One intercepted C3 aspirate step: because the configuration seeded the
ledger under the well-object key while `track_volume` reads the
`(display_name, parent)` tuple key, the read finds nothing (`V0 = 0`),
aspirates 0 µL, stores 0 under the tuple key and emits a VolumeShortfall
error. -/
theorem c3_wrapper_step (S : LState)
    (h0 : dictGet S.well_volumes (wellKeyOf (.well wellA1)) 0 = 0)
    (hp : lookup "p20" S.flow_rates = some prof20) :
    wrapper S c3_asp.funcName c3_asp.pipette c3_asp.args =
      .ok { S with
        console := S.console ++ [(Level.info, .decorating "aspirate"),
          (Level.action, .aspirateAction "p20" 0 0 8),
          (Level.error, .shortfall 20 0)],
        logs := S.logs ++ [LogEntry.act (.aspirateAction "p20" 0 0 8),
          LogEntry.err (.shortfall 20 0)],
        well_volumes := setEntry (wellKeyOf (.well wellA1)) 0 S.well_volumes } := by
  have heq : wrapper S c3_asp.funcName c3_asp.pipette c3_asp.args =
      track_volume (log_info S (.decorating "aspirate")) (.num 20) (.well wellA1)
        .none_ .none_ (some "p20") := rfl
  rw [heq, track_volume_aspirate_eq (log_info S (.decorating "aspirate")) wellA1 20 0
    .none_ (some "p20") prof20 (by simp [log_info, h0])
    (by rw [(by decide : effTip (some "p20") = "p20")]; simpa [log_info] using hp)]
  norm_num [log_info, log_action, log_error, get_effective_rate, pyTruthy, prof20,
    (by decide : effTip (some "p20") = "p20"),
    min_eq_left (by norm_num : (0:ℚ) ≤ 20)]

/-- The C3 scenario state after one, two and three intercepted aspirates. -/
def c3_S1 : LState :=
  { c3_state0 with
    console := c3_state0.console ++ [(Level.info, .decorating "aspirate"),
      (Level.action, .aspirateAction "p20" 0 0 8), (Level.error, .shortfall 20 0)],
    logs := c3_state0.logs ++ [LogEntry.act (.aspirateAction "p20" 0 0 8),
      LogEntry.err (.shortfall 20 0)],
    well_volumes := setEntry (wellKeyOf (.well wellA1)) 0 c3_state0.well_volumes }

/-- The C3 scenario state after the second aspirate. -/
def c3_S2 : LState :=
  { c3_S1 with
    console := c3_S1.console ++ [(Level.info, .decorating "aspirate"),
      (Level.action, .aspirateAction "p20" 0 0 8), (Level.error, .shortfall 20 0)],
    logs := c3_S1.logs ++ [LogEntry.act (.aspirateAction "p20" 0 0 8),
      LogEntry.err (.shortfall 20 0)],
    well_volumes := setEntry (wellKeyOf (.well wellA1)) 0 c3_S1.well_volumes }

/-- The C3 scenario state after the third aspirate. -/
def c3_S3 : LState :=
  { c3_S2 with
    console := c3_S2.console ++ [(Level.info, .decorating "aspirate"),
      (Level.action, .aspirateAction "p20" 0 0 8), (Level.error, .shortfall 20 0)],
    logs := c3_S2.logs ++ [LogEntry.act (.aspirateAction "p20" 0 0 8),
      LogEntry.err (.shortfall 20 0)],
    well_volumes := setEntry (wellKeyOf (.well wellA1)) 0 c3_S2.well_volumes }

/-- C3 fails on the code: after seeding `A1` with `capacity=360,
initial_volume=360` via the configuration and three intercepted 20 µL
aspirates, the volume under the key the tracking reads is 0 (not 300), the
seeded 360 still sits untouched under the well-object key, and three
VolumeShortfall errors were logged (not zero) — the configuration keys the
ledger by the well object while `track_volume` keys it by the
`(display_name, parent)` tuple. -/
theorem C3_config_key_mismatch :
    ∃ st', runCalls c3_state0 [c3_asp, c3_asp, c3_asp] = .ok st' ∧
      dictGet st'.well_volumes (wellKeyOf (.well wellA1)) 0 = 0 ∧
      lookup (WellKey.obj wellA1) st'.well_volumes = some 360 ∧
      errCount st'.logs = 3 ∧
      errCount c3_state0.logs = 0 := by
  have h1 : wrapper c3_state0 c3_asp.funcName c3_asp.pipette c3_asp.args = .ok c3_S1 :=
    c3_wrapper_step c3_state0 (by decide) (by decide)
  have h2 : wrapper c3_S1 c3_asp.funcName c3_asp.pipette c3_asp.args = .ok c3_S2 :=
    c3_wrapper_step c3_S1 (by decide) (by decide)
  have h3 : wrapper c3_S2 c3_asp.funcName c3_asp.pipette c3_asp.args = .ok c3_S3 :=
    c3_wrapper_step c3_S2 (by decide) (by decide)
  refine ⟨c3_S3, ?_, ?_, ?_, ?_, ?_⟩
  · simp only [runCalls, h1, h2, h3]
  · decide
  · decide
  · decide
  · decide

/-- C4: `track_volume` is NOT total — with a tip type that was never
registered in the flow-rate table (here the defaulted sentinel
`"unknown tip type"` on a fresh `LoggerDecorator`), an aspirate-shaped call
raises `KeyError` at `self.flow_rates[tip_type]["aspirate"]` instead of
returning.  This evaluates the embedded code at the failing input of the
claim. -/
theorem C4_sentinel_keyError :
    exErr (track_volume initState (.num 5) (.well wellA1) .none_ .none_ none) =
      some (PyErr.keyError "unknown tip type") := by
  decide

/-- Counterexample to C5 as stated: an intercepted `aspirate` call on a
resolved `p20` pipette whose tip type is not registered in the flow-rate
table raises `KeyError` inside the bookkeeping, so the wrapper neither
forwards the call nor returns the real operation's result. -/
theorem C5_counterexample :
    exErr (wrapperCall initState "aspirate" (some pipP20)
        { pos := [.num 5, .well wellA1] } (fun _ => (0 : ℤ))) =
      some (PyErr.keyError "p20") := by
  decide

/-- C5 (amended): whenever the per-operation bookkeeping completes without
raising, the wrapper returns exactly `real args` — the real operation applied
to the original, unmodified call payload; and in the unresolved-instrument
case the wrapper always completes, appends exactly one UnresolvedInstrument
ERROR entry, and still forwards and returns the real operation's result
verbatim. -/
theorem C5_passthrough :
    (∀ (R : Type) (st : LState) (f : String) (pip : Option Pipette)
       (args : CallArgs) (real : CallArgs → R),
       (wrapperCall st f pip args real).map Prod.snd =
         (wrapper st f pip args).map (fun _ => real args)) ∧
    (∀ (R : Type) (st : LState) (f : String) (args : CallArgs) (real : CallArgs → R),
       wrapperCall st f none args real =
         .ok (log_error (log_info st (.decorating f)) (.unresolved f), real args) ∧
       (log_error (log_info st (.decorating f)) (.unresolved f)).logs =
         st.logs ++ [LogEntry.err (.unresolved f)]) := by
  constructor
  · intro R st f pip args real
    cases h : wrapper st f pip args <;> simp [wrapperCall, h, Except.map]
  · intro R st f args real
    exact ⟨by simp [wrapperCall, wrapper], by simp [log_error, log_info]⟩

/-- A concrete already-patched class state with all three properties
installed. -/
def frCls0 : FRClassState :=
  { aspProp := some ⟨92⟩, dispProp := some ⟨92⟩, blowProp := some ⟨92⟩ }

/-- Counterexample to C6 as stated: assigning the non-numeric value
`"fast"` to an aspirate flow rate raises `ValueError` to the caller — the
exception escapes, and since the error return precedes any state change, no
ERROR entry is recorded in the log. -/
theorem C6_counterexample :
    flowProp_set initState frCls0 pipP20 RateAttr.aspirate (PyVal.str "fast") =
      .error PyErr.valueError := rfl

/-- C6 (amended): a non-numeric flow-rate assignment is rejected by raising
`ValueError` before any state change — the stored rate, the flow-rate table
and the log are all left untouched because the exception propagates to the
caller instead of being recorded as an ERROR entry. -/
theorem C6_reject_raises (st : LState) (cls : FRClassState) (pip : Pipette)
    (attr : RateAttr) (value : PyVal) (h : isNumericPy value = false) :
    flowProp_set st cls pip attr value = .error .valueError := by
  cases value
  · simp [isNumericPy] at h
  · rfl
  · rfl
  · rfl

/-- Witness for C6 (amended) at the concrete non-numeric value `"fast"`. -/
theorem C6_reject_witness :
    isNumericPy (PyVal.str "fast") = false ∧
    flowProp_set initState frCls0 pipP20 RateAttr.dispense (PyVal.str "fast") =
      .error PyErr.valueError :=
  ⟨rfl, C6_reject_raises initState frCls0 pipP20 RateAttr.dispense (PyVal.str "fast") rfl⟩

/-- Counterexample to C8 as stated: a flow-rate-change INFO message is
emitted to the console, yet `get_logs()` on a fresh logger stays empty — the
INFO entry is not part of the returned log. -/
theorem C8_counterexample :
    get_logs (log_info initState (.flowRateChange "p300" RateAttr.aspirate 50)) = [] ∧
    (log_info initState (.flowRateChange "p300" RateAttr.aspirate 50)).console =
      initState.console ++ [(Level.info, .flowRateChange "p300" RateAttr.aspirate 50)] :=
  ⟨rfl, rfl⟩

/-- C8 (amended): `log_info` prints to the console only and never appends to
the log, so INFO messages — including the one emitted by a successful
flow-rate assignment — are absent from `get_logs()`, which therefore contains
only ACTION and ERROR entries. -/
theorem C8_info_console_only :
    (∀ (st : LState) (m : LogMsg), get_logs (log_info st m) = get_logs st ∧
       (log_info st m).console = st.console ++ [(Level.info, m)]) ∧
    (∀ (st : LState) (cls : FRClassState) (pip : Pipette) (attr : RateAttr) (v : ℚ),
       (flowProp_set st cls pip attr (.num v)).map (fun p => (p.1).logs) =
         .ok st.logs) := by
  constructor
  · intro st m
    exact ⟨rfl, rfl⟩
  · intro st cls pip attr v
    simp [flowProp_set, log_flow_rate_change, log_info, Except.map]

/-- C10: `wrap_flow_rate` installs its properties on the flow-rate object's
class, so for two instruments sharing that class: the second instrument's
nominal capture reads through the first instrument's already-installed
property; after both wraps every read of the shared attribute returns the
same single stored value regardless of which instrument is read (namely the
first instrument's original value); and one assignment through the shared
property changes what both instruments read to the assigned value —
per-instrument accounting is not independent. -/
theorem C10_class_level_sharing (cls : FRClassState) (o1 o2 : FlowRateObj)
    (attr : RateAttr) (v : ℚ) :
    (getattrFR (wrap_flow_rate_class cls o1) o2 attr = getattrFR cls o1 attr) ∧
    (∀ o o' : FlowRateObj,
       getattrFR (wrap_flow_rate_class (wrap_flow_rate_class cls o1) o2) o attr =
         getattrFR (wrap_flow_rate_class (wrap_flow_rate_class cls o1) o2) o' attr) ∧
    (getattrFR (wrap_flow_rate_class (wrap_flow_rate_class cls o1) o2) o2 attr =
       getattrFR cls o1 attr) ∧
    (∀ (st : LState) (pip : Pipette),
       (flowProp_set st (wrap_flow_rate_class (wrap_flow_rate_class cls o1) o2)
           pip attr (.num v)).map
         (fun p => (getattrFR p.2 o1 attr, getattrFR p.2 o2 attr)) = .ok (v, v)) := by
  refine ⟨?_, ?_, ?_, ?_⟩
  · cases attr <;> rfl
  · intro o o'
    cases attr <;> rfl
  · cases attr <;> rfl
  · intro st pip
    cases attr <;> simp [flowProp_set, getattrFR, FRClassState.setProp,
      FRClassState.prop, wrap_flow_rate_class, Except.map]

/-- A completing aspirate branch appends a chunk of log entries; the chunk is
nonempty whenever the source is truthy. -/
theorem track_volume_source_logs (st : LState) (volume source rate : PyVal)
    (tip : String) (st' : LState)
    (h : track_volume_source st volume source rate tip = .ok st') :
    ∃ ch, st'.logs = st.logs ++ ch ∧ (pyTruthy source = true → ch ≠ []) := by
  unfold track_volume_source at h
  split at h
  · -- source truthy
    split at h
    · -- volume = num v
      split at h
      · exact absurd h (by simp)
      · dsimp only at h
        split at h
        · injection h with h
          subst h
          exact ⟨_, by simp [log_error, log_action]; rfl, fun _ => by simp⟩
        · injection h with h
          subst h
          exact ⟨_, by simp [log_action]; rfl, fun _ => by simp⟩
    · exact absurd h (by simp)
  · -- source falsy
    next hs =>
      injection h with h
      subst h
      exact ⟨[], by simp, fun hc => absurd hc hs⟩

/-- A completing dispense branch appends a chunk of log entries; the chunk is
nonempty whenever the destination is truthy. -/
theorem track_volume_dest_logs (st : LState) (volume destination rate : PyVal)
    (tip : String) (st' : LState)
    (h : track_volume_dest st volume destination rate tip = .ok st') :
    ∃ ch, st'.logs = st.logs ++ ch ∧ (pyTruthy destination = true → ch ≠ []) := by
  unfold track_volume_dest at h
  split at h
  · split at h
    · split at h
      · exact absurd h (by simp)
      · dsimp only at h
        split at h
        · injection h with h
          subst h
          exact ⟨_, by simp [log_error, log_action]; rfl, fun _ => by simp⟩
        · injection h with h
          subst h
          exact ⟨_, by simp [log_action]; rfl, fun _ => by simp⟩
    · exact absurd h (by simp)
  · next hs =>
      injection h with h
      subst h
      exact ⟨[], by simp, fun hc => absurd hc hs⟩

/-- A completing `track_volume` call appends a chunk of log entries,
nonempty whenever the source or the destination is truthy. -/
theorem track_volume_logs (st : LState) (volume source destination rate : PyVal)
    (tip_type : Option String) (st' : LState)
    (h : track_volume st volume source destination rate tip_type = .ok st') :
    ∃ ch, st'.logs = st.logs ++ ch ∧
      ((pyTruthy source = true ∨ pyTruthy destination = true) → ch ≠ []) := by
  unfold track_volume at h
  dsimp only at h
  cases hsrc : track_volume_source st volume source rate (effTip tip_type) with
  | error e => rw [hsrc] at h; exact absurd h (by simp)
  | ok st₁ =>
    rw [hsrc] at h
    obtain ⟨ch₁, hl₁, hn₁⟩ :=
      track_volume_source_logs st volume source rate (effTip tip_type) st₁ hsrc
    obtain ⟨ch₂, hl₂, hn₂⟩ :=
      track_volume_dest_logs st₁ volume destination rate (effTip tip_type) st' h
    refine ⟨ch₁ ++ ch₂, by simp [hl₂, hl₁], ?_⟩
    rintro (hs | hd) hap
    · exact hn₁ hs (by simpa using (List.append_eq_nil.mp hap).1)
    · exact hn₂ hd (by simpa using (List.append_eq_nil.mp hap).2)

/-- Invert an `Except.ok` equation. -/
theorem ok_state_chunk (S : LState) (st' : LState)
    (h : Except.ok (ε := PyErr) S = .ok st') : st' = S := by
  injection h with h
  exact h.symm

/-- A completing dispatch appends a chunk of log entries; the chunk is
nonempty for aspirate/dispense with a truthy location and for every other
operation kind except `set_flow_rate` (whose quiet branch logs nothing). -/
theorem dispatch_logs_chunk (st : LState) (f : String) (p : Pipette)
    (args : CallArgs) (st' : LState) (h : dispatch st f p args = .ok st') :
    ∃ ch, st'.logs = st.logs ++ ch ∧
      ((f = "aspirate" ∨ f = "dispense") → pyTruthy (argLocation args) = true → ch ≠ []) ∧
      (¬(f = "aspirate" ∨ f = "dispense" ∨ f = "set_flow_rate") → ch ≠ []) := by
  by_cases hmix : f = "mix"
  · subst hmix
    have h0 : dispatch st "mix" p args = (match argLocation args with
        | .well w =>
          match (if pyTruthy (argRate args) = true then argRate args else .num 1) with
          | .num r => .ok (log_action st (.mixAction (get_dynamic_tip_type p)
              (argRepetitions args) (argVolume args) w r))
          | _ => .error .valueError
        | _ => .ok (log_error st .mixError)) := rfl
    rw [h0] at h
    split at h
    · split at h
      · obtain rfl := ok_state_chunk _ _ h
        exact ⟨_, by simp [log_action]; rfl, fun _ _ => by simp, fun _ => by simp⟩
      · exact absurd h (by simp)
    · obtain rfl := ok_state_chunk _ _ h
      exact ⟨_, by simp [log_error]; rfl, fun _ _ => by simp, fun _ => by simp⟩
  by_cases hasp : f = "aspirate"
  · subst hasp
    have h0 : dispatch st "aspirate" p args =
        track_volume st (argVolume args) (argLocation args) .none_ (argRate args)
          (some (get_dynamic_tip_type p)) := rfl
    rw [h0] at h
    obtain ⟨ch, hl, hn⟩ := track_volume_logs _ _ _ _ _ _ _ h
    exact ⟨ch, hl, fun _ hloc => hn (Or.inl hloc),
      fun hne => absurd (Or.inl rfl) hne⟩
  by_cases hdisp : f = "dispense"
  · subst hdisp
    have h0 : dispatch st "dispense" p args =
        track_volume st (argVolume args) .none_ (argLocation args) (argRate args)
          (some (get_dynamic_tip_type p)) := rfl
    rw [h0] at h
    obtain ⟨ch, hl, hn⟩ := track_volume_logs _ _ _ _ _ _ _ h
    exact ⟨ch, hl, fun _ hloc => hn (Or.inr hloc),
      fun hne => absurd (Or.inr (Or.inl rfl)) hne⟩
  by_cases hpick : f = "pick_up_tip"
  · subst hpick
    obtain rfl := ok_state_chunk _ _ h
    exact ⟨_, by simp [log_action]; rfl, fun _ _ => by simp, fun _ => by simp⟩
  by_cases hdrop : f = "drop_tip"
  · subst hdrop
    obtain rfl := ok_state_chunk _ _ h
    exact ⟨_, by simp [log_action]; rfl, fun _ _ => by simp, fun _ => by simp⟩
  by_cases hblow : f = "blow_out"
  · subst hblow
    have h0 : dispatch st "blow_out" p args =
        (match lookup (get_dynamic_tip_type p) st.flow_rates with
         | some _ => .error .attributeError
         | none => if pyTruthy (argRate args) = true then .error .typeError
             else .error .attributeError) := rfl
    rw [h0] at h
    split at h
    · exact absurd h (by simp)
    · split at h <;> exact absurd h (by simp)
  by_cases hsfr : f = "set_flow_rate"
  · subst hsfr
    have h0 : dispatch st "set_flow_rate" p args =
        (if (pyTruthy ((args.kwAction).getD .none_) &&
             pyTruthy ((args.kwValue).getD .none_)) = true then
          .error .attributeError
         else .ok st) := rfl
    rw [h0] at h
    split at h
    · exact absurd h (by simp)
    · obtain rfl := ok_state_chunk _ _ h
      refine ⟨[], by simp, ?_, ?_⟩
      · rintro (h' | h') _
        · exact absurd h' hasp
        · exact absurd h' hdisp
      · intro hne
        exact absurd (Or.inr (Or.inr rfl)) hne
  by_cases hbt : f = "set_block_temperature"
  · subst hbt
    obtain rfl := ok_state_chunk _ _ h
    exact ⟨_, by simp [log_action]; rfl, fun _ _ => by simp, fun _ => by simp⟩
  by_cases hlt : f = "set_lid_temperature"
  · subst hlt
    obtain rfl := ok_state_chunk _ _ h
    exact ⟨_, by simp [log_action]; rfl, fun _ _ => by simp, fun _ => by simp⟩
  by_cases hcl : f = "close_lid"
  · subst hcl
    obtain rfl := ok_state_chunk _ _ h
    exact ⟨_, by simp [log_action]; rfl, fun _ _ => by simp, fun _ => by simp⟩
  by_cases hol : f = "open_lid"
  · subst hol
    obtain rfl := ok_state_chunk _ _ h
    exact ⟨_, by simp [log_action]; rfl, fun _ _ => by simp, fun _ => by simp⟩
  by_cases heng : f = "engage"
  · subst heng
    obtain rfl := ok_state_chunk _ _ h
    exact ⟨_, by simp [log_action]; rfl, fun _ _ => by simp, fun _ => by simp⟩
  by_cases hdis : f = "disengage"
  · subst hdis
    obtain rfl := ok_state_chunk _ _ h
    exact ⟨_, by simp [log_action]; rfl, fun _ _ => by simp, fun _ => by simp⟩
  -- catch-all
  have h0 : dispatch st f p args = .ok (log_action st (.generic f)) := by
    unfold dispatch
    dsimp only
    rw [if_neg hmix, if_neg hasp, if_neg hdisp, if_neg hpick, if_neg hdrop,
      if_neg hblow, if_neg hsfr, if_neg hbt, if_neg hlt, if_neg hcl, if_neg hol,
      if_neg heng, if_neg hdis]
  rw [h0] at h
  obtain rfl := ok_state_chunk _ _ h
  exact ⟨_, by simp [log_action]; rfl, fun _ _ => by simp, fun _ => by simp⟩

/-- The calls guaranteed to append at least one log entry: every unresolved
call, and every resolved call that is not an aspirate/dispense with a falsy
location. -/
def loggingCall (c : Call) : Bool :=
  match c.pipette with
  | none => true
  | some _ =>
    if c.funcName = "aspirate" ∨ c.funcName = "dispense" then
      pyTruthy (argLocation c.args)
    else true

/-- A completing intercepted call appends a chunk of log entries, nonempty
for every `loggingCall`. -/
theorem wrapper_logs_chunk (st : LState) (c : Call) (st' : LState)
    (hf : c.funcName ∈ interceptedNames)
    (h : wrapper st c.funcName c.pipette c.args = .ok st') :
    ∃ ch, st'.logs = st.logs ++ ch ∧ (loggingCall c = true → ch ≠ []) := by
  obtain ⟨f, pip, args⟩ := c
  dsimp only at h hf ⊢
  cases pip with
  | none =>
    have h0 : wrapper st f none args =
        .ok (log_error (log_info st (.decorating f)) (.unresolved f)) := rfl
    rw [h0] at h
    obtain rfl := ok_state_chunk _ _ h
    exact ⟨_, by simp [log_error, log_info]; rfl, fun _ => by simp⟩
  | some p =>
    have h0 : wrapper st f (some p) args =
        dispatch (log_info st (.decorating f)) f p args := rfl
    rw [h0] at h
    obtain ⟨ch, hl, h2, h3⟩ := dispatch_logs_chunk _ _ _ _ _ h
    refine ⟨ch, by simpa [log_info] using hl, ?_⟩
    intro hlc
    by_cases had : f = "aspirate" ∨ f = "dispense"
    · have hlc' := hlc
      simp only [loggingCall] at hlc'
      rw [if_pos had] at hlc'
      exact h2 had hlc'
    · refine h3 ?_
      rintro (h' | h' | h')
      · exact had (Or.inl h')
      · exact had (Or.inr h')
      · rw [h'] at hf
        exact absurd hf (by decide)

/-- A completing sequence of intercepted calls appends one chunk per call,
concatenated in call order. -/
theorem runCalls_chunks (st : LState) (calls : List Call) (st' : LState)
    (hint : ∀ c ∈ calls, c.funcName ∈ interceptedNames)
    (h : runCalls st calls = .ok st') :
    ∃ chunks : List (List LogEntry), chunks.length = calls.length ∧
      st'.logs = st.logs ++ chunks.flatten ∧
      List.Forall₂ (fun c ch => loggingCall c = true → ch ≠ []) calls chunks := by
  induction calls generalizing st with
  | nil =>
    simp only [runCalls] at h
    injection h with h
    subst h
    exact ⟨[], rfl, by simp, List.Forall₂.nil⟩
  | cons c rest ih =>
    cases hw : wrapper st c.funcName c.pipette c.args with
    | error e =>
      simp only [runCalls, hw] at h
      exact absurd h (by simp)
    | ok st₁ =>
      simp only [runCalls, hw] at h
      obtain ⟨ch, hch, hne⟩ := wrapper_logs_chunk st c st₁ (hint c (by simp)) hw
      obtain ⟨chunks, hlen, hlogs, hfa⟩ :=
        ih st₁ (fun c' hc' => hint c' (by simp [hc'])) h
      exact ⟨ch :: chunks, by simp [hlen], by rw [hlogs, hch]; simp,
        List.Forall₂.cons hne hfa⟩

/-- A concatenation of nonempty chunks has at least one element per chunk. -/
theorem length_le_join_length (chunks : List (List LogEntry))
    (h : ∀ ch ∈ chunks, ch ≠ []) : chunks.length ≤ chunks.flatten.length := by
  induction chunks with
  | nil => simp
  | cons hd tl ih =>
    simp only [List.flatten_cons, List.length_cons, List.length_append]
    have h1 : 1 ≤ hd.length := List.length_pos.mpr (h hd (by simp))
    have h2 := ih (fun ch hc => h ch (by simp [hc]))
    omega

/-- C7 (amended): for any completing sequence of N intercepted calls the log
is append-only and decomposes into one chunk per call, concatenated in the
order the calls were issued — so the ACTION entries appear in the calls'
relative order; every logging call (any unresolved call, and any resolved
intercepted call except an aspirate/dispense whose location is falsy)
contributes a nonempty chunk, so when all N calls log,
`len(get_logs())` grows by at least N. -/
theorem C7_log_order (st : LState) (calls : List Call) (st' : LState)
    (hint : ∀ c ∈ calls, c.funcName ∈ interceptedNames)
    (hrun : runCalls st calls = .ok st') :
    ∃ chunks : List (List LogEntry), chunks.length = calls.length ∧
      st'.logs = st.logs ++ chunks.flatten ∧
      List.Forall₂ (fun c ch => loggingCall c = true → ch ≠ []) calls chunks ∧
      ((∀ c ∈ calls, loggingCall c = true) →
        st.logs.length + calls.length ≤ st'.logs.length) := by
  obtain ⟨chunks, hlen, hlogs, hfa⟩ := runCalls_chunks st calls st' hint hrun
  refine ⟨chunks, hlen, hlogs, hfa, ?_⟩
  intro hall
  have hne : ∀ ch ∈ chunks, ch ≠ [] := by
    clear hlen hlogs hrun hint
    revert hall
    induction hfa with
    | nil =>
      intro _ ch hch
      simp at hch
    | cons hR htail ih =>
      intro hall ch' hch'
      rcases List.mem_cons.mp hch' with hch' | hch'
      · subst hch'
        exact hR (hall _ (List.mem_cons_self _ _))
      · exact ih (fun c' hc' => hall c' (List.mem_cons_of_mem _ hc')) ch' hch'
  have hjoin := length_le_join_length chunks hne
  calc st.logs.length + calls.length
      = st.logs.length + chunks.length := by rw [hlen]
    _ ≤ st.logs.length + chunks.flatten.length := by omega
    _ = st'.logs.length := by rw [hlogs, List.length_append]

/-- Reading back the key just written. -/
theorem dictGet_setEntry_self {K V : Type} [DecidableEq K] (k : K) (v : V)
    (d : List (K × V)) (dflt : V) : dictGet (setEntry k v d) k dflt = v := by
  simp [dictGet, lookup_setEntry_self]

/-- Writing one key leaves reads of other keys unchanged. -/
theorem dictGet_setEntry_ne {K V : Type} [DecidableEq K] {k t : K} (v : V)
    (d : List (K × V)) (dflt : V) (h : t ≠ k) :
    dictGet (setEntry k v d) t dflt = dictGet d t dflt := by
  simp [dictGet, lookup_setEntry_ne v h]

/-- The aspirate branch never touches `tip_usage`. -/
theorem track_volume_source_usage (st : LState) (volume source rate : PyVal)
    (tip : String) (st' : LState)
    (h : track_volume_source st volume source rate tip = .ok st') :
    st'.tip_usage = st.tip_usage := by
  unfold track_volume_source at h
  split at h
  · split at h
    · split at h
      · exact absurd h (by simp)
      · dsimp only at h
        split at h
        · injection h with h
          subst h
          rfl
        · injection h with h
          subst h
          rfl
    · exact absurd h (by simp)
  · injection h with h
    subst h
    rfl

/-- The dispense branch never touches `tip_usage`. -/
theorem track_volume_dest_usage (st : LState) (volume destination rate : PyVal)
    (tip : String) (st' : LState)
    (h : track_volume_dest st volume destination rate tip = .ok st') :
    st'.tip_usage = st.tip_usage := by
  unfold track_volume_dest at h
  split at h
  · split at h
    · split at h
      · exact absurd h (by simp)
      · dsimp only at h
        split at h
        · injection h with h
          subst h
          rfl
        · injection h with h
          subst h
          rfl
    · exact absurd h (by simp)
  · injection h with h
    subst h
    rfl

/-- `track_volume` never touches `tip_usage`. -/
theorem track_volume_usage (st : LState) (volume source destination rate : PyVal)
    (tip_type : Option String) (st' : LState)
    (h : track_volume st volume source destination rate tip_type = .ok st') :
    st'.tip_usage = st.tip_usage := by
  unfold track_volume at h
  dsimp only at h
  cases hsrc : track_volume_source st volume source rate (effTip tip_type) with
  | error e =>
    rw [hsrc] at h
    exact absurd h (by simp)
  | ok st₁ =>
    rw [hsrc] at h
    rw [track_volume_dest_usage _ _ _ _ _ _ h,
      track_volume_source_usage _ _ _ _ _ _ hsrc]

/-- No dispatch branch other than `pick_up_tip` modifies `tip_usage`. -/
theorem dispatch_usage_eq (st : LState) (f : String) (p : Pipette)
    (args : CallArgs) (st' : LState) (hne : f ≠ "pick_up_tip")
    (h : dispatch st f p args = .ok st') : st'.tip_usage = st.tip_usage := by
  by_cases hmix : f = "mix"
  · subst hmix
    have h0 : dispatch st "mix" p args = (match argLocation args with
        | .well w =>
          match (if pyTruthy (argRate args) = true then argRate args else .num 1) with
          | .num r => .ok (log_action st (.mixAction (get_dynamic_tip_type p)
              (argRepetitions args) (argVolume args) w r))
          | _ => .error .valueError
        | _ => .ok (log_error st .mixError)) := rfl
    rw [h0] at h
    split at h
    · split at h
      · obtain rfl := ok_state_chunk _ _ h
        rfl
      · exact absurd h (by simp)
    · obtain rfl := ok_state_chunk _ _ h
      rfl
  by_cases hasp : f = "aspirate"
  · subst hasp
    have h0 : dispatch st "aspirate" p args =
        track_volume st (argVolume args) (argLocation args) .none_ (argRate args)
          (some (get_dynamic_tip_type p)) := rfl
    rw [h0] at h
    exact track_volume_usage _ _ _ _ _ _ _ h
  by_cases hdisp : f = "dispense"
  · subst hdisp
    have h0 : dispatch st "dispense" p args =
        track_volume st (argVolume args) .none_ (argLocation args) (argRate args)
          (some (get_dynamic_tip_type p)) := rfl
    rw [h0] at h
    exact track_volume_usage _ _ _ _ _ _ _ h
  by_cases hdrop : f = "drop_tip"
  · subst hdrop
    obtain rfl := ok_state_chunk _ _ h
    rfl
  by_cases hblow : f = "blow_out"
  · subst hblow
    have h0 : dispatch st "blow_out" p args =
        (match lookup (get_dynamic_tip_type p) st.flow_rates with
         | some _ => .error .attributeError
         | none => if pyTruthy (argRate args) = true then .error .typeError
             else .error .attributeError) := rfl
    rw [h0] at h
    split at h
    · exact absurd h (by simp)
    · split at h <;> exact absurd h (by simp)
  by_cases hsfr : f = "set_flow_rate"
  · subst hsfr
    have h0 : dispatch st "set_flow_rate" p args =
        (if (pyTruthy ((args.kwAction).getD .none_) &&
             pyTruthy ((args.kwValue).getD .none_)) = true then
          .error .attributeError
         else .ok st) := rfl
    rw [h0] at h
    split at h
    · exact absurd h (by simp)
    · obtain rfl := ok_state_chunk _ _ h
      rfl
  by_cases hbt : f = "set_block_temperature"
  · subst hbt
    obtain rfl := ok_state_chunk _ _ h
    rfl
  by_cases hlidt : f = "set_lid_temperature"
  · subst hlidt
    obtain rfl := ok_state_chunk _ _ h
    rfl
  by_cases hcl : f = "close_lid"
  · subst hcl
    obtain rfl := ok_state_chunk _ _ h
    rfl
  by_cases hol : f = "open_lid"
  · subst hol
    obtain rfl := ok_state_chunk _ _ h
    rfl
  by_cases heng : f = "engage"
  · subst heng
    obtain rfl := ok_state_chunk _ _ h
    rfl
  by_cases hdis : f = "disengage"
  · subst hdis
    obtain rfl := ok_state_chunk _ _ h
    rfl
  have h0 : dispatch st f p args = .ok (log_action st (.generic f)) := by
    unfold dispatch
    dsimp only
    rw [if_neg hmix, if_neg hasp, if_neg hdisp, if_neg hne, if_neg hdrop,
      if_neg hblow, if_neg hsfr, if_neg hbt, if_neg hlidt, if_neg hcl, if_neg hol,
      if_neg heng, if_neg hdis]
  rw [h0] at h
  obtain rfl := ok_state_chunk _ _ h
  rfl

/-- No intercepted operation other than `pick_up_tip` modifies
`tip_usage`. -/
theorem wrapper_usage_eq (st : LState) (f : String) (pip : Option Pipette)
    (args : CallArgs) (st' : LState) (hne : f ≠ "pick_up_tip")
    (h : wrapper st f pip args = .ok st') : st'.tip_usage = st.tip_usage := by
  cases pip with
  | none =>
    have h0 : wrapper st f none args =
        .ok (log_error (log_info st (.decorating f)) (.unresolved f)) := rfl
    rw [h0] at h
    obtain rfl := ok_state_chunk _ _ h
    rfl
  | some p =>
    have h0 : wrapper st f (some p) args =
        dispatch (log_info st (.decorating f)) f p args := rfl
    rw [h0] at h
    exact dispatch_usage_eq (log_info st (.decorating f)) f p args st' hne h

/-- A resolved `pick_up_tip` call sets its tip type's count to the old count
plus one and leaves the rest of the table alone. -/
theorem wrapper_pick_up_usage (st : LState) (p : Pipette) (args : CallArgs)
    (st' : LState) (h : wrapper st "pick_up_tip" (some p) args = .ok st') :
    st'.tip_usage = setEntry (get_dynamic_tip_type p)
      (dictGet st.tip_usage (get_dynamic_tip_type p) 0 + 1) st.tip_usage := by
  have h0 : wrapper st "pick_up_tip" (some p) args =
      .ok (log_action
        { log_info st (.decorating "pick_up_tip") with
          tip_usage := setEntry (get_dynamic_tip_type p)
            (dictGet st.tip_usage (get_dynamic_tip_type p) 0 + 1) st.tip_usage }
        (.pickUp (get_dynamic_tip_type p)
          (dictGet st.tip_usage (get_dynamic_tip_type p) 0 + 1))) := rfl
  rw [h0] at h
  obtain rfl := ok_state_chunk _ _ h
  rfl

/-- Every completing intercepted call leaves every tip count
non-decreasing. -/
theorem wrapper_usage_mono (st : LState) (f : String) (pip : Option Pipette)
    (args : CallArgs) (st' : LState) (h : wrapper st f pip args = .ok st') :
    ∀ t, dictGet st.tip_usage t 0 ≤ dictGet st'.tip_usage t 0 := by
  by_cases hpick : f = "pick_up_tip"
  · subst hpick
    cases pip with
    | none =>
      have h0 : wrapper st "pick_up_tip" none args =
          .ok (log_error (log_info st (.decorating "pick_up_tip"))
            (.unresolved "pick_up_tip")) := rfl
      rw [h0] at h
      obtain rfl := ok_state_chunk _ _ h
      exact fun t => le_refl _
    | some p =>
      intro t
      rw [wrapper_pick_up_usage st p args st' h]
      by_cases ht : t = get_dynamic_tip_type p
      · subst ht
        rw [dictGet_setEntry_self]
        exact Nat.le_succ _
      · rw [dictGet_setEntry_ne _ _ _ ht]
  · intro t
    rw [wrapper_usage_eq st f pip args st' hpick h]

/-- Tip counts are non-decreasing across any completing sequence of
intercepted calls. -/
theorem runCalls_usage_mono (st : LState) (calls : List Call) (st' : LState)
    (h : runCalls st calls = .ok st') :
    ∀ t, dictGet st.tip_usage t 0 ≤ dictGet st'.tip_usage t 0 := by
  induction calls generalizing st with
  | nil =>
    simp only [runCalls] at h
    injection h with h
    subst h
    exact fun t => le_refl _
  | cons c rest ih =>
    cases hw : wrapper st c.funcName c.pipette c.args with
    | error e =>
      simp only [runCalls, hw] at h
      exact absurd h (by simp)
    | ok st₁ =>
      simp only [runCalls, hw] at h
      exact fun t => le_trans (wrapper_usage_mono _ _ _ _ _ hw t) (ih st₁ h t)

/-- A fresh logger state with the `p20` profile registered. -/
def c7_state : LState :=
  { initState with flow_rates := [("p20", prof20)] }

/-- An intercepted `p20.aspirate(5)` call with no location argument. -/
def c7_noloc : Call :=
  { funcName := "aspirate", pipette := some pipP20, args := { pos := [.num 5] } }

/-- Counterexample to C7 as stated: a single completing intercepted
`aspirate` call with no location argument appends no log entries at all, so
`len(get_logs()) = 0 < N = 1`. -/
theorem C7_counterexample :
    exOk (runCalls c7_state [c7_noloc]) = true ∧
    (exGet initState (runCalls c7_state [c7_noloc])).logs.length = 0 := by
  decide

/-- An intercepted `p20.drop_tip()` call. -/
def c7_drop : Call :=
  { funcName := "drop_tip", pipette := some pipP20, args := {} }

/-- The state after the one-call `drop_tip` run. -/
def c7_res : LState := exGet initState (runCalls c7_state [c7_drop])

/-- Witness for C7 (amended) on a concrete one-call `drop_tip` run. -/
theorem C7_log_order_witness :
    ∃ chunks : List (List LogEntry), chunks.length = ([c7_drop] : List Call).length ∧
      c7_res.logs = c7_state.logs ++ chunks.flatten ∧
      List.Forall₂ (fun c ch => loggingCall c = true → ch ≠ []) [c7_drop] chunks ∧
      ((∀ c ∈ ([c7_drop] : List Call), loggingCall c = true) →
        c7_state.logs.length + ([c7_drop] : List Call).length ≤ c7_res.logs.length) :=
  C7_log_order c7_state [c7_drop] c7_res (by decide) (by rfl)

/-- C9: an attributed intercepted `pick_up_tip` call increments exactly its
tip type's count by one (others unchanged); every other intercepted
operation, `drop_tip` included, leaves the whole counter table unchanged; and
over any completing sequence of intercepted calls every tip count is
monotonically non-decreasing. -/
theorem C9_tip_usage :
    (∀ (st : LState) (p : Pipette) (args : CallArgs) (st' : LState),
       wrapper st "pick_up_tip" (some p) args = .ok st' →
       dictGet st'.tip_usage (get_dynamic_tip_type p) 0 =
         dictGet st.tip_usage (get_dynamic_tip_type p) 0 + 1 ∧
       ∀ t, t ≠ get_dynamic_tip_type p →
         lookup t st'.tip_usage = lookup t st.tip_usage) ∧
    (∀ (st : LState) (f : String) (pip : Option Pipette) (args : CallArgs)
       (st' : LState), f ≠ "pick_up_tip" → wrapper st f pip args = .ok st' →
       st'.tip_usage = st.tip_usage) ∧
    (∀ (st : LState) (calls : List Call) (st' : LState),
       runCalls st calls = .ok st' →
       ∀ t, dictGet st.tip_usage t 0 ≤ dictGet st'.tip_usage t 0) := by
  refine ⟨?_, ?_, ?_⟩
  · intro st p args st' h
    constructor
    · rw [wrapper_pick_up_usage st p args st' h, dictGet_setEntry_self]
    · intro t ht
      rw [wrapper_pick_up_usage st p args st' h, lookup_setEntry_ne _ ht]
  · exact fun st f pip args st' hne h => wrapper_usage_eq st f pip args st' hne h
  · exact fun st calls st' h => runCalls_usage_mono st calls st' h

/-- The state after one intercepted `p20.pick_up_tip()` on a fresh logger. -/
def c9_res : LState :=
  exGet initState (wrapper initState "pick_up_tip" (some pipP20) {})

/-- Witness for C9: one pick-up on a fresh logger takes the `p20` count from
0 to 1. -/
theorem C9_tip_usage_witness :
    dictGet c9_res.tip_usage "p20" 0 = dictGet initState.tip_usage "p20" 0 + 1 :=
  ((C9_tip_usage).1 initState pipP20 {} c9_res (by rfl)).1

end MRresSSB
